import Mathlib

/-!
# A shallow embedding of the segregated-list allocator `copymm.c`

The C program manipulates one flat byte array through casts and macros.  The
embedding keeps that view: the heap is a function from addresses to bytes,
`unsigned int` accesses are four little-endian bytes, `size_t` and pointer
accesses are eight, and pointer and `size_t` arithmetic wraps at `2 ^ 64`.
Loops that may spin forever return `none`.
-/

namespace CopyMM

/-! ## Constants of the source -/

/-- `WSIZE`: word size in bytes. -/
def WSIZE : Nat := 4

/-- `DSIZE`: double word size in bytes. -/
def DSIZE : Nat := 8

/-- `CHUNKSIZE`: initial heap size in bytes, `1 << 12`. -/
def CHUNKSIZE : Nat := 4096

/-- `OVERHEAD`: bytes taken by header and footer of an allocated block. -/
def OVERHEAD : Nat := 8

/-- `MIN_BLOCK_SIZE`: smallest block kept in a free list. -/
def MIN_BLOCK_SIZE : Nat := 24

/-- `MAXBUCKETS`: the global `int MAXBUCKETS = 14`, never assigned again. -/
def MAXBUCKETS : Nat := 14

/-- Number of values of a 64-bit `size_t` or pointer. -/
def SIZE_T_MOD : Nat := 18446744073709551616

/-- The null pointer. -/
def NULL : Nat := 0

/-- The value `(void *)-1` by which the growth primitive reports failure. -/
def SBRK_FAILED : Nat := 18446744073709551615

/-- `sizeof(header_t)`: one 32-bit bit-field word and one 32-bit padding word. -/
def SIZEOF_HEADER_T : Nat := 8

/-- `sizeof(block_t)` on the 64-bit target the source is written for: the
8-byte header followed by a union holding two 8-byte pointers. -/
def SIZEOF_BLOCK_T : Nat := 24

/-! ## Memory and machine arithmetic -/

/-- The allocator state: the bytes of the address space, the two variables of
the growth primitive (`mem_brk`, `mem_max_addr`), the list of byte counts the
growth primitive has been asked for so far (most recent first), and the two
pointer globals of the source, `freeLists` and `prologue`. -/
structure Heap where
  mem : Nat → Nat
  mem_brk : Nat
  mem_max_addr : Nat
  sbrk_requests : List Nat
  freeLists : Nat
  prologue : Nat

/-- Addition on pointers and on `size_t`, wrapping at `2 ^ 64`. -/
def add64 (a b : Nat) : Nat := (a + b) % SIZE_T_MOD

/-- Subtraction on pointers and on `size_t`, wrapping at `2 ^ 64`. -/
def sub64 (a b : Nat) : Nat := (a % SIZE_T_MOD + (SIZE_T_MOD - b % SIZE_T_MOD)) % SIZE_T_MOD

/-- Multiplication on `size_t`, wrapping at `2 ^ 64`. -/
def mul64 (a b : Nat) : Nat := (a * b) % SIZE_T_MOD

/-- Little-endian value of the `n` bytes stored from address `p` on. -/
def loadBytes (m : Nat → Nat) (p : Nat) : Nat → Nat
  | 0 => 0
  | n + 1 => m p % 256 + 256 * loadBytes m (p + 1) n

/-- Memory after storing the low `n` bytes of `v`, little-endian, from `p` on. -/
def storeBytes (m : Nat → Nat) (p n v : Nat) : Nat → Nat :=
  fun a => if p ≤ a ∧ a < p + n then v / 256 ^ (a - p) % 256 else m a

/-- `PACK(size, alloc)`: `(size) | (alloc)`. -/
def PACK (size alloc : Nat) : Nat := size ||| alloc

/-- `GET(p)`: `*(unsigned int *)(p)`. -/
def GET (s : Heap) (p : Nat) : Nat := loadBytes s.mem p 4

/-- `PUT(p, val)`: `*(unsigned int *)(p) = (val)`, which keeps the low 32 bits. -/
def PUT (s : Heap) (p val : Nat) : Heap := { s with mem := storeBytes s.mem p 4 val }

/-- `PUTP(p, val)`: `*((size_t *)(p)) = (val)`. -/
def PUTP (s : Heap) (p val : Nat) : Heap := { s with mem := storeBytes s.mem p 8 val }

/-- `GET_SIZE(p)`: `GET(p) & ~0x7`, an `unsigned int`. -/
def GET_SIZE (s : Heap) (p : Nat) : Nat := GET s p &&& 4294967288

/-- `GET_ALLOC(p)`: `GET(p) & 0x1`. -/
def GET_ALLOC (s : Heap) (p : Nat) : Nat := GET s p &&& 1

/-- `HDRP(bp)`: `(char *)(bp) - WSIZE`. -/
def HDRP (bp : Nat) : Nat := sub64 bp WSIZE

/-- `FTRP(bp)`: `(char *)(bp) + GET_SIZE(HDRP(bp)) - DSIZE`. -/
def FTRP (s : Heap) (bp : Nat) : Nat := sub64 (add64 bp (GET_SIZE s (HDRP bp))) DSIZE

/-- `NEXT_BLKP(bp)`: `(char *)(bp) + GET_SIZE((char *)(bp) - WSIZE)`. -/
def NEXT_BLKP (s : Heap) (bp : Nat) : Nat := add64 bp (GET_SIZE s (sub64 bp WSIZE))

/-- `PREV_BLKP(bp)`: `(char *)(bp) - GET_SIZE((char *)(bp) - DSIZE)`. -/
def PREV_BLKP (s : Heap) (bp : Nat) : Nat := sub64 bp (GET_SIZE s (sub64 bp DSIZE))

/-- `SUCC_FREE(bp)`: the address `bp` itself (the macro does not load). -/
def SUCC_FREE (bp : Nat) : Nat := bp

/-- `PRED_FREE(bp)`: the address `bp + DSIZE` (the macro does not load). -/
def PRED_FREE (bp : Nat) : Nat := add64 bp DSIZE

/-- The pointer read by `freeLists[i]`. -/
def freeListAt (s : Heap) (i : Nat) : Nat := loadBytes s.mem (add64 s.freeLists (8 * i)) 8

/-- The assignment `freeLists[i] = val`. -/
def setFreeList (s : Heap) (i val : Nat) : Heap :=
  { s with mem := storeBytes s.mem (add64 s.freeLists (8 * i)) 8 val }

/-- Modelled from the spec: the heap-growth primitive `mem_sbrk` of memlib,
of which the sources include only the header.  It hands out the bytes from the
current break on, contiguous with everything granted before, and fails, leaving
the break where it was, when the request does not fit below `mem_max_addr`.
Every request is recorded in `sbrk_requests`. -/
def mem_sbrk (s : Heap) (incr : Nat) : Nat × Heap :=
  if s.mem_brk + incr > s.mem_max_addr then
    (SBRK_FAILED, { s with sbrk_requests := incr :: s.sbrk_requests })
  else
    (s.mem_brk, { s with mem_brk := s.mem_brk + incr,
                         sbrk_requests := incr :: s.sbrk_requests })

/-- `memcpy(dst, src, n)`. -/
def memcpy (s : Heap) (dst src n : Nat) : Heap :=
  { s with mem := fun a => if dst ≤ a ∧ a < dst + n then s.mem (src + (a - dst)) else s.mem a }

/-! ## The helper routines -/

/-- `findBucket`: the bucket of the segregated list for a size. -/
def findBucket (size : Nat) : Nat :=
  if size ≤ 16 then 0
  else if size ≤ 32 then 1
  else if size ≤ 64 then 2
  else if size ≤ 128 then 3
  else if size ≤ 256 then 4
  else if size ≤ 512 then 5
  else if size ≤ 1024 then 6
  else if size ≤ 2048 then 7
  else if size ≤ 4096 then 8
  else if size ≤ 8192 then 9
  else if size ≤ 16384 then 10
  else if size ≤ 32768 then 11
  else if size ≤ 65536 then 12
  else 13

/-- The `for` loop of `addFree`, started with `k` iterations in hand at bucket
`bucketIndex` and with `bucket_ptr` as last assigned.  The inner `while` loop
changes nothing: when it is entered with `size > GET_SIZE(HDRP(ptr))` it never
exits, which is the result `none`; otherwise it leaves at once.  The result is
the pair of `bucketIndex` and `bucket_ptr` after the loop. -/
def addFree_loop (s : Heap) (ptr size : Nat) : Nat → Nat → Nat → Option (Nat × Nat)
  | 0, bucketIndex, bucket_ptr =>
    if bucketIndex < MAXBUCKETS - 1 then none else some (bucketIndex, bucket_ptr)
  | k + 1, bucketIndex, bucket_ptr =>
    if bucketIndex < MAXBUCKETS - 1 then
      if freeListAt s bucketIndex ≠ NULL ∧ ¬ size ≤ GET_SIZE s (HDRP ptr) then none
      else addFree_loop s ptr size k (bucketIndex + 1) (freeListAt s bucketIndex)
    else some (bucketIndex, bucket_ptr)

/-- `addFree`: adds a free block to the segregated list; `none` when the scan
loop never exits. -/
def addFree (s : Heap) (ptr size : Nat) : Option Heap :=
  match addFree_loop s ptr size MAXBUCKETS (findBucket size) NULL with
  | none => none
  | some (bucketIndex, bucket_ptr0) =>
    let bucket_ptr := if bucketIndex = MAXBUCKETS - 1 then freeListAt s bucketIndex else bucket_ptr0
    let s1 := PUTP s (PRED_FREE ptr) NULL
    let s2 :=
      if bucket_ptr ≠ NULL then PUTP (PUTP s1 (SUCC_FREE ptr) bucket_ptr) (PRED_FREE bucket_ptr) ptr
      else PUTP s1 (SUCC_FREE ptr) NULL
    some (setFreeList s2 bucketIndex ptr)

/-- `removeFree`: the four `if` statements run one after the other on the
locals `next = SUCC_FREE(ptr)` and `prev = PRED_FREE(ptr)`. -/
def removeFree (s : Heap) (ptr size : Nat) : Heap :=
  if ptr = NULL then s
  else
    let bucket := findBucket size
    let next := SUCC_FREE ptr
    let prev := PRED_FREE ptr
    let s1 := if prev = NULL ∧ next = NULL then setFreeList s bucket NULL else s
    let s2 :=
      if prev = NULL ∧ next ≠ NULL then PUTP (setFreeList s1 bucket next) (PRED_FREE next) NULL
      else s1
    let s3 :=
      if prev ≠ NULL ∧ next ≠ NULL then PUTP (PUTP s2 (SUCC_FREE prev) next) (PRED_FREE next) prev
      else s2
    if prev ≠ NULL ∧ next = NULL then PUTP s3 (SUCC_FREE prev) NULL else s3

/-- `coalesce`: boundary tag coalescing; returns the pointer to the coalesced
block, `none` when `addFree` never returns. -/
def coalesce (s : Heap) (ptr : Nat) : Option (Nat × Heap) :=
  let prev_alloc := GET_ALLOC s (FTRP s (PREV_BLKP s ptr))
  let next_alloc := GET_ALLOC s (HDRP (NEXT_BLKP s ptr))
  let size := GET_SIZE s (HDRP ptr)
  if prev_alloc ≠ 0 ∧ next_alloc ≠ 0 then
    (addFree s ptr size).map (fun s' => (ptr, s'))
  else if prev_alloc ≠ 0 ∧ ¬ next_alloc ≠ 0 then
    let next_size := GET_SIZE s (HDRP (NEXT_BLKP s ptr))
    let size := add64 size next_size
    let s1 := removeFree s (NEXT_BLKP s ptr) next_size
    let s2 := PUT s1 (HDRP ptr) (PACK size 0)
    let s3 := PUT s2 (FTRP s2 ptr) (PACK size 0)
    (addFree s3 ptr size).map (fun s' => (ptr, s'))
  else if ¬ prev_alloc ≠ 0 ∧ next_alloc ≠ 0 then
    let prev_size := GET_SIZE s (HDRP (PREV_BLKP s ptr))
    let size := add64 size prev_size
    let s1 := removeFree s (PREV_BLKP s ptr) prev_size
    let ptr1 := PREV_BLKP s1 ptr
    let s2 := PUT s1 (HDRP ptr1) (PACK size 0)
    let s3 := PUT s2 (FTRP s2 ptr1) (PACK size 0)
    (addFree s3 ptr1 size).map (fun s' => (ptr1, s'))
  else
    let prev_size := GET_SIZE s (HDRP (PREV_BLKP s ptr))
    let next_size := GET_SIZE s (HDRP (NEXT_BLKP s ptr))
    let size := add64 (add64 size prev_size) next_size
    let s1 := removeFree s (PREV_BLKP s ptr) prev_size
    let s2 := removeFree s1 (NEXT_BLKP s1 ptr) next_size
    let ptr1 := PREV_BLKP s2 ptr
    let s3 := PUT s2 (HDRP ptr1) (PACK size 0)
    let s4 := PUT s3 (FTRP s3 ptr1) (PACK size 0)
    (addFree s4 ptr1 size).map (fun s' => (ptr1, s'))

/-- The byte count `extend_heap(words)` asks the growth primitive for. -/
def extend_size (words : Nat) : Nat :=
  let size := if words % 2 ≠ 0 then mul64 (add64 words 1) WSIZE else mul64 words WSIZE
  if size < MIN_BLOCK_SIZE then MIN_BLOCK_SIZE else size

/-- `extend_heap`: extends the heap with a free block and returns its block
pointer, `NULL` when the growth primitive fails. -/
def extend_heap (s : Heap) (words : Nat) : Option (Nat × Heap) :=
  let size := extend_size words
  let r := mem_sbrk s size
  let bp := r.1
  let s0 := r.2
  if bp = SBRK_FAILED then some (NULL, s0)
  else
    let s1 := PUT s0 (HDRP bp) (PACK size 0)
    let s2 := PUT s1 (FTRP s1 bp) (PACK size 0)
    let s3 := PUT s2 (HDRP (NEXT_BLKP s2 bp)) (PACK 0 1)
    coalesce s3 bp

/-- `place`: places a block of `asize` bytes at the start of the block `ptr`
and splits when the remainder, computed in `size_t`, is at least the minimum
block size. -/
def place (s : Heap) (ptr asize : Nat) : Option Heap :=
  let freeSize := GET_SIZE s (HDRP ptr)
  let split_size := sub64 freeSize asize
  if split_size ≥ MIN_BLOCK_SIZE then
    let s1 := PUT s (HDRP ptr) (PACK asize 1)
    let s2 := PUT s1 (FTRP s1 ptr) (PACK asize 1)
    let new_block := add64 ptr (GET_SIZE s2 (HDRP ptr))
    let s3 := PUT s2 (HDRP new_block) (PACK split_size 0)
    let s4 := PUT s3 (FTRP s3 new_block) (PACK split_size 0)
    addFree s4 new_block split_size
  else
    let s1 := PUT s (HDRP ptr) (PACK freeSize 1)
    some (PUT s1 (FTRP s1 ptr) (PACK freeSize 1))

/-- The `while` loop of `find_fit` on one bucket, with `fuel` iterations in
hand: `some (some bp)` when it returns `bp`, `some none` when it reaches
`NULL`, `none` when the fuel runs out. -/
def find_fit_scan (s : Heap) (asize : Nat) : Nat → Nat → Option (Option Nat)
  | 0, _ => none
  | fuel + 1, bucketIt =>
    if bucketIt ≠ NULL then
      if GET_SIZE s bucketIt ≥ asize then some (some bucketIt)
      else find_fit_scan s asize fuel (NEXT_BLKP s bucketIt)
    else some none

/-- The `for` loop of `find_fit` with `k` iterations in hand at `bucket`. -/
def find_fit_loop (s : Heap) (asize fuel : Nat) : Nat → Nat → Option Nat
  | 0, bucket => if bucket < MAXBUCKETS then none else some NULL
  | k + 1, bucket =>
    if bucket < MAXBUCKETS then
      match find_fit_scan s asize fuel (freeListAt s bucket) with
      | none => none
      | some (some bp) => some bp
      | some none => find_fit_loop s asize fuel k (bucket + 1)
    else some NULL

/-- `find_fit`: finds a fit for a block of `asize` bytes; `fuel` bounds the
iterations of the inner loop on each bucket, and `none` is fuel run out. -/
def find_fit (fuel : Nat) (s : Heap) (asize : Nat) : Option Nat :=
  find_fit_loop s asize fuel MAXBUCKETS (findBucket asize)

/-! ## The entry points -/

/-- `mm_init`: initialises the memory manager; the result is the returned
`int` and the state, `none` when `addFree` never returns.  The global
`prologue` has type `block_t *`, so `prologue + (k*WSIZE)` lies
`k * WSIZE * sizeof(block_t)` bytes after `prologue`. -/
def mm_init (s : Heap) : Option (Int × Heap) :=
  let r0 := mem_sbrk s (MAXBUCKETS * DSIZE)
  let s0 : Heap := { r0.2 with freeLists := r0.1 }
  let s1 := (List.range MAXBUCKETS).foldl (fun t b => setFreeList t b NULL) s0
  let r1 := mem_sbrk s1 (4 * WSIZE)
  let s2 : Heap := { r1.2 with prologue := r1.1 }
  if s2.prologue = SBRK_FAILED then some (-1, s2)
  else
    let s3 := PUT s2 s2.prologue 0
    let s4 := PUT s3 (add64 s3.prologue (1 * WSIZE * SIZEOF_BLOCK_T)) (PACK DSIZE 1)
    let s5 := PUT s4 (add64 s4.prologue (2 * WSIZE * SIZEOF_BLOCK_T)) (PACK DSIZE 1)
    let s6 := PUT s5 (add64 s5.prologue (3 * WSIZE * SIZEOF_BLOCK_T)) (PACK 0 1)
    let s7 : Heap := { s6 with prologue := add64 s6.prologue (2 * WSIZE * SIZEOF_BLOCK_T) }
    match extend_heap s7 (CHUNKSIZE / WSIZE) with
    | none => none
    | some (ptr, s8) =>
      if ptr = NULL then some (-1, s8)
      else (addFree s8 ptr (CHUNKSIZE / WSIZE)).map (fun s9 => (0, s9))

/-- The adjusted block size `asize` that `mm_malloc` computes for a request
of `size` bytes. -/
def adjusted_size (size : Nat) : Nat :=
  if size ≤ DSIZE then 2 * DSIZE
  else mul64 DSIZE (add64 (add64 size DSIZE) (DSIZE - 1) / DSIZE)

/-- `mm_malloc`: the result is the returned pointer and the state, `none` when
the call does not return (within `fuel` in `find_fit`). -/
def mm_malloc (fuel : Nat) (s : Heap) (size : Nat) : Option (Nat × Heap) :=
  if size = 0 then some (NULL, s)
  else
    let asize := adjusted_size size
    match find_fit fuel s asize with
    | none => none
    | some bp =>
      if bp ≠ NULL then (place s bp asize).map (fun s' => (bp, s'))
      else
        let extendsize := if asize > CHUNKSIZE then asize else CHUNKSIZE
        match extend_heap s (extendsize / WSIZE) with
        | none => none
        | some (bp1, s1) =>
          if bp1 = NULL then some (NULL, s1)
          else (place s1 bp1 asize).map (fun s' => (bp1, s'))

/-- `mm_free`: frees a block; `none` when `addFree` never returns. -/
def mm_free (s : Heap) (payload : Nat) : Option Heap :=
  let size := GET_SIZE s (HDRP payload)
  let s1 := PUT s (HDRP payload) (PACK size 0)
  let s2 := PUT s1 (FTRP s1 payload) (PACK size 0)
  (coalesce s2 payload).map (fun r => r.2)

/-- The bit-field `block_size : 31` of the `block_t` at `block`: the bits
above the lowest of its first 32-bit word. -/
def block_size_field (s : Heap) (block : Nat) : Nat := GET s block / 2

/-- The number of bytes `mm_realloc` passes to `memcpy`. -/
def realloc_copySize (s : Heap) (ptr size : Nat) : Nat :=
  let copySize := block_size_field s (sub64 ptr SIZEOF_HEADER_T)
  if size < copySize then size else copySize

/-- How a call of `mm_realloc` ends: by `exit(1)` or by returning a pointer. -/
inductive ReallocResult where
  | exited (s : Heap)
  | returned (newp : Nat) (s : Heap)

/-- `mm_realloc`: the naive implementation of the source. -/
def mm_realloc (fuel : Nat) (s : Heap) (ptr size : Nat) : Option ReallocResult :=
  match mm_malloc fuel s size with
  | none => none
  | some (newp, s1) =>
    if newp = NULL then some (ReallocResult.exited s1)
    else
      let s2 := memcpy s1 newp ptr (realloc_copySize s1 ptr size)
      (mm_free s2 ptr).map (fun s3 => ReallocResult.returned newp s3)

/-! ## Sessions and observations -/

/-- `MAX_HEAP` of memlib: the provider grants at most 20 MiB. -/
def MAX_HEAP : Nat := 20971520

/-- Modelled from the spec: the heap-growth provider before its first grant
(`mem_init` of memlib, whose source is not included).  It will hand out the
`cap` bytes from `base` on; they hold zero, as freshly mapped memory does. -/
def mem_init (base cap : Nat) : Heap :=
  { mem := fun _ => 0, mem_brk := base, mem_max_addr := base + cap,
    sbrk_requests := [], freeLists := NULL, prologue := NULL }

/-- A start address of the kind a 20 MiB `malloc` returns on 64-bit Linux. -/
def base0 : Nat := 0x7ffff6bff010

/-- The first payload address of the heap: the break after the bucket table
(`MAXBUCKETS * DSIZE` bytes) and the four words asked for the prologue. -/
def first_bp (base : Nat) : Nat := base + MAXBUCKETS * DSIZE + 4 * WSIZE

/-- A call of the client: `mm_malloc(size)` or `mm_free(payload)`. -/
inductive Call where
  | malloc (size : Nat)
  | free (payload : Nat)

/-- Runs the calls in order from state `s`; the result lists the pointers the
`mm_malloc` calls returned, in call order, with the final state. -/
def run (fuel : Nat) : Heap → List Call → Option (List Nat × Heap)
  | s, [] => some ([], s)
  | s, Call.malloc size :: rest =>
    match mm_malloc fuel s size with
    | none => none
    | some (p, s1) =>
      match run fuel s1 rest with
      | none => none
      | some (ps, s2) => some (p :: ps, s2)
  | s, Call.free payload :: rest =>
    match mm_free s payload with
    | none => none
    | some s1 => run fuel s1 rest

/-- The state after a successful `mm_init` on the provider `h`. -/
def boot (h : Heap) : Option Heap :=
  match mm_init h with
  | some (0, s) => some s
  | _ => none

/-- Runs `mm_init` on a fresh 20 MiB provider at `base`, then the calls. -/
def session_at (base : Nat) (calls : List Call) : Option (List Nat × Heap) :=
  match boot (mem_init base MAX_HEAP) with
  | none => none
  | some s => run 8 s calls

/-- Runs `mm_init` on a fresh 20 MiB provider at `base0`, then the calls. -/
def session (calls : List Call) : Option (List Nat × Heap) := session_at base0 calls

/-- A start address, multiple of 16, sixteen bytes below a 4 GiB boundary:
the low halves of the heap addresses above it are small numbers. -/
def base1 : Nat := 0x7ffefffffff0

/-- The payload ranges `[p, p + n)` and `[q, q + m)` have a byte in common. -/
def overlaps (p n q m : Nat) : Prop := p < q + m ∧ q < p + n

instance (p n q m : Nat) : Decidable (overlaps p n q m) :=
  inferInstanceAs (Decidable (p < q + m ∧ q < p + n))

/-- The successor link of a block: the pointer stored at `SUCC_FREE(bp)`. -/
def succ_link (s : Heap) (bp : Nat) : Nat := loadBytes s.mem (SUCC_FREE bp) 8

/-- The predecessor link of a block: the pointer stored at `PRED_FREE(bp)`. -/
def pred_link (s : Heap) (bp : Nat) : Nat := loadBytes s.mem (PRED_FREE bp) 8

/-- The first `k` blocks met from `bp` on by following successor links. -/
def list_from (s : Heap) : Nat → Nat → List Nat
  | 0, _ => []
  | k + 1, bp => if bp = NULL then [] else bp :: list_from s k (succ_link s bp)

/-- Block `p` is met within `k` successor steps from the head of some bucket. -/
def in_free_lists (s : Heap) (k p : Nat) : Prop :=
  ∃ b ∈ List.range MAXBUCKETS, p ∈ list_from s k (freeListAt s b)

instance (s : Heap) (k p : Nat) : Decidable (in_free_lists s k p) :=
  inferInstanceAs (Decidable (∃ b ∈ List.range MAXBUCKETS, p ∈ list_from s k (freeListAt s b)))

/-- The blocks met from `bp` on by `NEXT_BLKP` steps, up to the first header
of size zero (the epilogue mark) and at most `k` of them. -/
def heap_chain (s : Heap) : Nat → Nat → List Nat
  | 0, _ => []
  | k + 1, bp =>
    if GET_SIZE s (HDRP bp) = 0 then [] else bp :: heap_chain s k (NEXT_BLKP s bp)

/-- Header and footer of the block record the same size and allocated bit. -/
def tags_agree (s : Heap) (bp : Nat) : Prop :=
  GET_SIZE s (HDRP bp) = GET_SIZE s (FTRP s bp) ∧ GET_ALLOC s (HDRP bp) = GET_ALLOC s (FTRP s bp)

instance (s : Heap) (bp : Nat) : Decidable (tags_agree s bp) :=
  inferInstanceAs (Decidable (GET_SIZE s (HDRP bp) = GET_SIZE s (FTRP s bp) ∧
    GET_ALLOC s (HDRP bp) = GET_ALLOC s (FTRP s bp)))

/-- Some two consecutive blocks of the list are both marked free. -/
def adjacent_free (s : Heap) : List Nat → Bool
  | a :: b :: rest =>
    (GET_ALLOC s (HDRP a) == 0 && GET_ALLOC s (HDRP b) == 0) || adjacent_free s (b :: rest)
  | _ => false

/-- The client stores the byte `v` in each of the `n` bytes from `p` on. -/
def fill (s : Heap) (p n v : Nat) : Heap :=
  { s with mem := fun a => if p ≤ a ∧ a < p + n then v % 256 else s.mem a }

/-- The `n` bytes stored from `p` on. -/
def bytes (s : Heap) (p n : Nat) : List Nat := (List.range n).map (fun i => s.mem (p + i) % 256)

/-- The usable size of a block: the size in its header less header and footer. -/
def usable_size (s : Heap) (bp : Nat) : Nat := GET_SIZE s (HDRP bp) - OVERHEAD

/-- The byte count `mm_malloc(size)` asks the growth primitive for when no
free block fits. -/
def growth_request (size : Nat) : Nat :=
  extend_size ((if adjusted_size size > CHUNKSIZE then adjusted_size size else CHUNKSIZE) / WSIZE)

/-- The state in which `mm_init` leaves a provider that can grant the bucket
table and the prologue words but not the first chunk: it returns -1 there. -/
def starved : Heap :=
  match mm_init (mem_init base0 1024) with
  | some (_, s) => s
  | none => mem_init base0 1024

/-- What a call of `mm_realloc` shows to the client: the pointer returned and
the first `n` bytes stored there, or nothing when it ended by `exit(1)`. -/
def ReallocResult.shown (n : Nat) : ReallocResult → Option (Nat × List Nat)
  | ReallocResult.exited _ => none
  | ReallocResult.returned newp s => some (newp, bytes s newp n)

/-- A start address of the same kind as `base0` (a page boundary plus 16)
whose region crosses a 4 GiB boundary 4080 bytes in. -/
def base2 : Nat := 0x7ffefffff010

/-- The state `starved` after the provider's limit has been raised by 20 MiB. -/
def regrown : Heap := { starved with mem_max_addr := starved.mem_max_addr + MAX_HEAP }

/-- Writes header and footer `PACK(size, alloc)` of the block `bp`. -/
def write_tags (s : Heap) (bp size alloc : Nat) : Heap :=
  let s1 := PUT s (HDRP bp) (PACK size alloc)
  PUT s1 (FTRP s1 bp) (PACK size alloc)

/-- A hand-made heap that meets every invariant of the data model: bucket table
at `base0`, an allocated 8-byte prologue, the blocks `q` (40 bytes, free), `a`
(24 bytes, allocated) and `p` (64 bytes, free) with `q = first_bp base0`,
`a = q + 40`, `p = q + 64`, an epilogue header, and the list `q, p` with
consistent links in bucket `findBucket 40 = findBucket 64 = 2`. -/
def tidy : Heap :=
  let q := first_bp base0
  let p := q + 64
  let s0 : Heap := { mem_init base0 MAX_HEAP with
    mem_brk := base0 + 256, freeLists := base0, prologue := base0 + 120 }
  let s1 := write_tags s0 (base0 + 120) 8 1
  let s2 := write_tags s1 q 40 0
  let s3 := write_tags s2 (q + 40) 24 1
  let s4 := write_tags s3 p 64 0
  let s5 := PUT s4 (HDRP (p + 64)) (PACK 0 1)
  let s6 := PUTP (PUTP s5 (SUCC_FREE q) p) (PRED_FREE q) NULL
  let s7 := PUTP (PUTP s6 (SUCC_FREE p) NULL) (PRED_FREE p) q
  setFreeList s7 2 q


/-- The two states agree on everything but the bytes of memory. -/
def same_provider (s t : Heap) : Prop :=
  t.mem_brk = s.mem_brk ∧ t.mem_max_addr = s.mem_max_addr ∧
  t.sbrk_requests = s.sbrk_requests ∧ t.freeLists = s.freeLists ∧ t.prologue = s.prologue

/-! ## Theorems -/

/-- An observation made on the result of a run determines that the run
returned. -/
theorem map_some_elim {α β : Type} {o : Option α} {f : α → β} {b : β}
    (h : o.map f = some b) : ∃ a, o = some a ∧ f a = b := by
  cases o with
  | none => simp at h
  | some a => exact ⟨a, rfl, by simpa using h⟩

/-- C1 fails on the code: after `mm_init`, three blocks are allocated, the
middle one is freed, and the next two calls `mm_malloc(16)` both return the
middle block, with no `mm_free` between them.  The two live allocations have
the same payload range. -/
theorem malloc_returns_live_block_again :
    ∃ s, session [Call.malloc 16, Call.malloc 16, Call.malloc 16, Call.free (first_bp base0 + 24),
          Call.malloc 16, Call.malloc 16]
        = some ([first_bp base0, first_bp base0 + 24, first_bp base0 + 48,
                 first_bp base0 + 24, first_bp base0 + 24], s) ∧
      first_bp base0 + 24 ≠ NULL ∧
      overlaps (first_bp base0 + 24) 16 (first_bp base0 + 24) 16 := by
  have h : (session [Call.malloc 16, Call.malloc 16, Call.malloc 16,
          Call.free (first_bp base0 + 24), Call.malloc 16, Call.malloc 16]).map Prod.fst
      = some [first_bp base0, first_bp base0 + 24, first_bp base0 + 48,
              first_bp base0 + 24, first_bp base0 + 24] := by decide
  obtain ⟨⟨ps, s⟩, hs, hf⟩ := map_some_elim h
  simp only at hf
  subst hf
  exact ⟨s, hs, by decide, by decide⟩

/-- C2 fails on the code: after `mm_init`, `mm_malloc(SIZE_MAX)` returns a
non-null pointer to a block whose header records 8 bytes (the adjusted size
wrapped around), so its usable size is far below the request. -/
theorem malloc_overflowing_request_short_block :
    ∃ s, session [Call.malloc 18446744073709551615] = some ([first_bp base0], s) ∧
      first_bp base0 ≠ NULL ∧ GET_SIZE s (HDRP (first_bp base0)) = 8 ∧
      usable_size s (first_bp base0) < 18446744073709551615 := by
  have h : (session [Call.malloc 18446744073709551615]).map
      (fun r => (r.1, GET_SIZE r.2 (HDRP (first_bp base0)), usable_size r.2 (first_bp base0)))
      = some ([first_bp base0], 8, 0) := by decide
  obtain ⟨⟨ps, s⟩, hs, hf⟩ := map_some_elim h
  simp only [Prod.mk.injEq] at hf
  obtain ⟨h1, h2, h3⟩ := hf
  subst h1
  exact ⟨s, hs, by decide, h2, by rw [h3]; decide⟩

/-- C3: `mm_malloc(0)` returns `NULL` and the state after the call is the state
before it, whatever that state is: no byte of memory, no free-list head and
no variable of the growth primitive changes, and the list of requests made to
the growth primitive gains no entry. -/
theorem mm_malloc_zero (fuel : Nat) (s : Heap) : mm_malloc fuel s 0 = some (NULL, s) := by
  simp [mm_malloc]

/-- The extension path of `mm_malloc` when growth fails: for a request `n > 0`,
when `find_fit` returns `NULL` for the adjusted size and the byte count
`extend_heap` asks for does not fit below `mem_max_addr`, `mm_malloc(n)`
returns `NULL`; memory, and with it all free-list heads, the break and the two
pointer globals are as before, and the only trace of the call is the one
failed request recorded for the growth primitive. -/
theorem mm_malloc_growth_failure (fuel : Nat) (s : Heap) (n : Nat) (hn : 0 < n)
    (hfit : find_fit fuel s (adjusted_size n) = some NULL)
    (hfail : s.mem_max_addr < s.mem_brk + growth_request n) :
    ∃ s', mm_malloc fuel s n = some (NULL, s') ∧ s'.mem = s.mem ∧
      (∀ i, freeListAt s' i = freeListAt s i) ∧ s'.mem_brk = s.mem_brk ∧
      s'.freeLists = s.freeLists ∧ s'.prologue = s.prologue ∧
      s'.sbrk_requests = growth_request n :: s.sbrk_requests := by
  have hn0 : n ≠ 0 := Nat.pos_iff_ne_zero.mp hn
  refine ⟨{ s with sbrk_requests := growth_request n :: s.sbrk_requests }, ?_, rfl, ?_, rfl, rfl, rfl, rfl⟩
  · simp only [mm_malloc, if_neg hn0, hfit]
    simp only [NULL, ne_eq, not_true_eq_false, if_false]
    have hext : extend_heap s ((if adjusted_size n > CHUNKSIZE then adjusted_size n else CHUNKSIZE) / WSIZE)
        = some (0, { s with sbrk_requests := growth_request n :: s.sbrk_requests }) := by
      have hgt : s.mem_brk + growth_request n > s.mem_max_addr := hfail
      simp only [extend_heap, mem_sbrk]
      simp only [growth_request] at hgt
      simp [hgt, growth_request, NULL]
    rw [hext]
    simp
  · intro i; rfl

/-- The failing extension path at a concrete input: in the state left by an
`mm_init` whose first chunk the provider could not grant, every bucket is
empty, `mm_malloc(16)` cannot grow the heap and returns `NULL` with memory
unchanged. -/
theorem mm_malloc_growth_failure_witness : (0 < 16 ∧ find_fit 8 starved (adjusted_size 16) = some NULL ∧
      starved.mem_max_addr < starved.mem_brk + growth_request 16) ∧
    ∃ s', mm_malloc 8 starved 16 = some (NULL, s') ∧ s'.mem = starved.mem ∧
      (∀ i, freeListAt s' i = freeListAt starved i) ∧ s'.mem_brk = starved.mem_brk ∧
      s'.freeLists = starved.freeLists ∧ s'.prologue = starved.prologue ∧
      s'.sbrk_requests = growth_request 16 :: starved.sbrk_requests :=
  ⟨by decide, mm_malloc_growth_failure 8 starved 16 (by decide) (by decide) (by decide)⟩

/-- C5 fails on the code: after `mm_init`, the block returned by
`mm_malloc(16)` is marked allocated and is the successor of the head of bucket
13, so it is still reached from a bucket head by successor links. -/
theorem malloc_block_stays_in_free_list :
    ∃ s, session [Call.malloc 16] = some ([first_bp base0], s) ∧ first_bp base0 ≠ NULL ∧
      GET_ALLOC s (HDRP (first_bp base0)) = 1 ∧
      succ_link s (freeListAt s 13) = first_bp base0 ∧ in_free_lists s 2 (first_bp base0) := by
  have h : (session [Call.malloc 16]).map
      (fun r => (r.1, GET_ALLOC r.2 (HDRP (first_bp base0)), succ_link r.2 (freeListAt r.2 13),
        decide (in_free_lists r.2 2 (first_bp base0))))
      = some ([first_bp base0], 1, first_bp base0, true) := by decide
  obtain ⟨⟨ps, s⟩, hs, hf⟩ := map_some_elim h
  simp only [Prod.mk.injEq, decide_eq_true_eq] at hf
  obtain ⟨h1, h2, h3, h4⟩ := hf
  subst h1
  exact ⟨s, hs, by decide, h2, h3, h4⟩

/-- C6 fails on the code: a live block of usable size 16 is filled with the
byte 170 and passed to `mm_realloc` with new size 32.  The internal
`mm_malloc` succeeds, the byte count computed for `memcpy` is 0 instead of
16, and the first 16 bytes at the returned pointer are not the stored ones. -/
theorem realloc_copies_nothing :
    ∃ s sm s2 newp, session [Call.malloc 16] = some ([first_bp base0], s) ∧
      usable_size s (first_bp base0) = 16 ∧
      bytes (fill s (first_bp base0) 16 170) (first_bp base0) 16 = List.replicate 16 170 ∧
      mm_malloc 8 (fill s (first_bp base0) 16 170) 32 = some (newp, sm) ∧
      realloc_copySize sm (first_bp base0) 32 = 0 ∧
      mm_realloc 8 (fill s (first_bp base0) 16 170) (first_bp base0) 32
        = some (ReallocResult.returned newp s2) ∧
      bytes s2 newp 16 ≠ List.replicate 16 170 := by
  have h : (session [Call.malloc 16]).bind (fun r =>
      (mm_malloc 8 (fill r.2 (first_bp base0) 16 170) 32).bind (fun m =>
      (mm_realloc 8 (fill r.2 (first_bp base0) 16 170) (first_bp base0) 32).bind (fun q =>
      (q.shown 16).map (fun v => decide
        (r.1 = [first_bp base0] ∧ usable_size r.2 (first_bp base0) = 16 ∧
         bytes (fill r.2 (first_bp base0) 16 170) (first_bp base0) 16 = List.replicate 16 170 ∧
         realloc_copySize m.2 (first_bp base0) 32 = 0 ∧ v.1 = m.1 ∧
         v.2 ≠ List.replicate 16 170)))))
      = some true := by decide
  obtain ⟨⟨ps, s⟩, hs, hb⟩ := Option.bind_eq_some.mp h
  obtain ⟨⟨np, sm⟩, hm, hb2⟩ := Option.bind_eq_some.mp hb
  obtain ⟨q, hq, hb3⟩ := Option.bind_eq_some.mp hb2
  obtain ⟨v, hv, hf⟩ := map_some_elim hb3
  simp only [decide_eq_true_eq] at hf
  obtain ⟨h1, h2, h3, h5, h6, h7⟩ := hf
  subst h1
  cases q with
  | exited t => simp [ReallocResult.shown] at hv
  | returned newp s2 =>
    simp only [ReallocResult.shown, Option.some.injEq] at hv
    subst hv
    simp only at h6 h7 hq hm h5
    rw [← h6] at hm
    exact ⟨s, sm, s2, newp, hs, h2, h3, hm, h5, hq, h7⟩

/-- C7 fails on the code: after `mm_init` and `mm_malloc(8)`, the returned
block, first of the chain, has header word 17 (size 16, allocated) while its
footer word holds the low half of a free-list link. -/
theorem small_request_breaks_tags :
    ∃ s, session [Call.malloc 8] = some ([first_bp base0], s) ∧
      first_bp base0 ∈ heap_chain s 4 (first_bp base0) ∧
      GET s (HDRP (first_bp base0)) = 17 ∧ GET s (FTRP s (first_bp base0)) = 4139774112 ∧
      ¬ tags_agree s (first_bp base0) := by
  have h : (session [Call.malloc 8]).map
      (fun r => (r.1, decide (first_bp base0 ∈ heap_chain r.2 4 (first_bp base0)),
        GET r.2 (HDRP (first_bp base0)), GET r.2 (FTRP r.2 (first_bp base0)),
        decide (tags_agree r.2 (first_bp base0))))
      = some ([first_bp base0], true, 17, 4139774112, false) := by decide
  obtain ⟨⟨ps, s⟩, hs, hf⟩ := map_some_elim h
  simp only [Prod.mk.injEq, decide_eq_true_eq, decide_eq_false_iff_not] at hf
  obtain ⟨h1, h2, h3, h4, h5⟩ := hf
  subst h1
  exact ⟨s, hs, h2, h3, h4, h5⟩

/-- C8 fails on the code: after `mm_init` and two calls `mm_malloc(16)` the
chain has three blocks with agreeing tags and no two adjacent free blocks;
`mm_free` of the first (live) block then leaves a chain of two blocks with
agreeing tags that are both free. -/
theorem free_first_block_leaves_adjacent_free :
    ∃ s s', session [Call.malloc 16, Call.malloc 16]
          = some ([first_bp base0, first_bp base0 + 24], s) ∧
      heap_chain s 8 (first_bp base0)
          = [first_bp base0, first_bp base0 + 24, first_bp base0 + 48] ∧
      (∀ bp ∈ heap_chain s 8 (first_bp base0), tags_agree s bp) ∧
      adjacent_free s (heap_chain s 8 (first_bp base0)) = false ∧
      mm_free s (first_bp base0) = some s' ∧
      heap_chain s' 8 (first_bp base0) = [first_bp base0, first_bp base0 + 48] ∧
      (∀ bp ∈ heap_chain s' 8 (first_bp base0), tags_agree s' bp) ∧
      adjacent_free s' (heap_chain s' 8 (first_bp base0)) = true := by
  have h : (session [Call.malloc 16, Call.malloc 16]).bind
      (fun r => (mm_free r.2 (first_bp base0)).map (fun t => decide
        (r.1 = [first_bp base0, first_bp base0 + 24] ∧
         heap_chain r.2 8 (first_bp base0)
           = [first_bp base0, first_bp base0 + 24, first_bp base0 + 48] ∧
         (∀ bp ∈ heap_chain r.2 8 (first_bp base0), tags_agree r.2 bp) ∧
         adjacent_free r.2 (heap_chain r.2 8 (first_bp base0)) = false ∧
         heap_chain t 8 (first_bp base0) = [first_bp base0, first_bp base0 + 48] ∧
         (∀ bp ∈ heap_chain t 8 (first_bp base0), tags_agree t bp) ∧
         adjacent_free t (heap_chain t 8 (first_bp base0)) = true)))
      = some true := by decide
  obtain ⟨⟨ps, s⟩, hs, hb⟩ := Option.bind_eq_some.mp h
  obtain ⟨t, ht, hf⟩ := map_some_elim hb
  simp only [decide_eq_true_eq] at hf
  obtain ⟨h1, h2, h3, h4, h5, h6, h7⟩ := hf
  subst h1
  exact ⟨s, t, hs, h2, h3, h4, ht, h5, h6, h7⟩

/-- C9 fails on the code: on a provider whose first address is a multiple of
8 (even of 16), after `mm_init`, five calls of `mm_malloc`, a `mm_free` of a
live block and one more `mm_malloc`, the call `mm_malloc(64)` returns a
non-null pointer that leaves remainder 1 modulo 8.  All accesses of the run
stay inside the provider region. -/
theorem malloc_returns_misaligned_pointer :
    base1 % 8 = 0 ∧
    ∃ s, session_at base1 [Call.malloc 88, Call.malloc 40, Call.malloc 8, Call.malloc 88,
          Call.malloc 8, Call.free (base1 + 288), Call.malloc 72, Call.malloc 64]
        = some ([base1 + 128, base1 + 224, base1 + 272, base1 + 288, base1 + 384,
                 base1 + 16, base1 + 233], s) ∧
      base1 + 233 ≠ NULL ∧ (base1 + 233) % 8 = 1 := by
  have h : (session_at base1 [Call.malloc 88, Call.malloc 40, Call.malloc 8, Call.malloc 88,
          Call.malloc 8, Call.free (base1 + 288), Call.malloc 72, Call.malloc 64]).map Prod.fst
      = some [base1 + 128, base1 + 224, base1 + 272, base1 + 288, base1 + 384,
              base1 + 16, base1 + 233] := by decide
  obtain ⟨⟨ps, s⟩, hs, hf⟩ := map_some_elim h
  simp only at hf
  subst hf
  exact ⟨by decide, s, hs, by decide, by decide⟩

/-- C10 fails on the code: after a successful `mm_init` the bucket
`findBucket(4096)` is empty; the one free block sits in bucket 13, its header
records 8192 bytes, and its successor and predecessor links both point to the
block itself, so following successors meets it again and again. -/
theorem init_post_state :
    ∃ s, boot (mem_init base0 MAX_HEAP) = some s ∧
      freeListAt s (findBucket 4096) = NULL ∧
      freeListAt s 13 = first_bp base0 ∧
      GET_SIZE s (HDRP (first_bp base0)) = 8192 ∧
      succ_link s (first_bp base0) = first_bp base0 ∧
      pred_link s (first_bp base0) = first_bp base0 ∧
      list_from s 3 (freeListAt s 13) = [first_bp base0, first_bp base0, first_bp base0] := by
  have h : (boot (mem_init base0 MAX_HEAP)).map
      (fun s => (freeListAt s (findBucket 4096), freeListAt s 13,
        GET_SIZE s (HDRP (first_bp base0)), succ_link s (first_bp base0),
        pred_link s (first_bp base0), list_from s 3 (freeListAt s 13)))
      = some (NULL, first_bp base0, 8192, first_bp base0, first_bp base0,
          [first_bp base0, first_bp base0, first_bp base0]) := by decide
  obtain ⟨s, hs, hf⟩ := map_some_elim h
  simp only [Prod.mk.injEq] at hf
  obtain ⟨h1, h2, h3, h4, h5, h6⟩ := hf
  exact ⟨s, hs, h1, h2, h3, h4, h5, h6⟩

/-! ## Lemmas on memory, tags and termination -/

theorem loadBytes_storeBytes_same4 (m : Nat → Nat) (p v : Nat) :
    loadBytes (storeBytes m p 4 v) p 4 = v % 4294967296 := by
  simp only [loadBytes, storeBytes]
  have h0 : p ≤ p ∧ p < p + 4 := by omega
  have h1 : p ≤ p + 1 ∧ p + 1 < p + 4 := by omega
  have h2 : p ≤ p + 1 + 1 ∧ p + 1 + 1 < p + 4 := by omega
  have h3 : p ≤ p + 1 + 1 + 1 ∧ p + 1 + 1 + 1 < p + 4 := by omega
  rw [if_pos h0, if_pos h1, if_pos h2, if_pos h3]
  have e0 : p - p = 0 := by omega
  have e1 : p + 1 - p = 1 := by omega
  have e2 : p + 1 + 1 - p = 2 := by omega
  have e3 : p + 1 + 1 + 1 - p = 3 := by omega
  rw [e0, e1, e2, e3]
  norm_num
  omega

theorem loadBytes_storeBytes_disj4 (m : Nat → Nat) (p n v q : Nat)
    (h : q + 4 ≤ p ∨ p + n ≤ q) :
    loadBytes (storeBytes m p n v) q 4 = loadBytes m q 4 := by
  simp only [loadBytes, storeBytes]
  have h0 : ¬ (p ≤ q ∧ q < p + n) := by omega
  have h1 : ¬ (p ≤ q + 1 ∧ q + 1 < p + n) := by omega
  have h2 : ¬ (p ≤ q + 1 + 1 ∧ q + 1 + 1 < p + n) := by omega
  have h3 : ¬ (p ≤ q + 1 + 1 + 1 ∧ q + 1 + 1 + 1 < p + n) := by omega
  rw [if_neg h0, if_neg h1, if_neg h2, if_neg h3]

theorem size_mask_eq (x : Nat) : x &&& 4294967288 = x % 4294967296 - x % 8 := by
  apply Nat.eq_of_testBit_eq
  intro i
  have hm : (4294967288 : Nat) = 2 ^ 3 * (2 ^ 29 - 1) := by norm_num
  have hx : x % 4294967296 - x % 8 = 2 ^ 3 * (x % 2 ^ 32 / 2 ^ 3) := by
    norm_num
    omega
  rw [Nat.testBit_and, hm, hx, Nat.testBit_mul_pow_two, Nat.testBit_mul_pow_two,
    Nat.testBit_two_pow_sub_one, ← Nat.shiftRight_eq_div_pow, Nat.testBit_shiftRight,
    Nat.testBit_mod_two_pow]
  by_cases h3 : 3 ≤ i
  · by_cases h32 : i < 32
    · have : i - 3 < 29 := by omega
      have e : 3 + (i - 3) = i := by omega
      simp [h3, h32, this, e]
    · have : ¬ i - 3 < 29 := by omega
      have e : 3 + (i - 3) = i := by omega
      simp [h3, h32, this, e]
  · simp [h3]

theorem same_provider_refl (s : Heap) : same_provider s s := ⟨rfl, rfl, rfl, rfl, rfl⟩

theorem same_provider_trans {s t u : Heap} (h1 : same_provider s t) (h2 : same_provider t u) :
    same_provider s u := by
  obtain ⟨a1, a2, a3, a4, a5⟩ := h1
  obtain ⟨b1, b2, b3, b4, b5⟩ := h2
  exact ⟨b1.trans a1, b2.trans a2, b3.trans a3, b4.trans a4, b5.trans a5⟩

theorem same_provider_PUT (s : Heap) (p v : Nat) : same_provider s (PUT s p v) :=
  ⟨rfl, rfl, rfl, rfl, rfl⟩

theorem same_provider_PUTP (s : Heap) (p v : Nat) : same_provider s (PUTP s p v) :=
  ⟨rfl, rfl, rfl, rfl, rfl⟩

theorem same_provider_setFreeList (s : Heap) (i v : Nat) : same_provider s (setFreeList s i v) :=
  ⟨rfl, rfl, rfl, rfl, rfl⟩

theorem same_provider_removeFree (s : Heap) (ptr size : Nat) :
    same_provider s (removeFree s ptr size) := by
  unfold removeFree
  dsimp only
  split_ifs <;> exact ⟨rfl, rfl, rfl, rfl, rfl⟩

theorem PACK_zero (x : Nat) : PACK x 0 = x := by simp [PACK]

theorem GET_SIZE_mod8 (s : Heap) (p : Nat) : GET_SIZE s p % 8 = 0 := by
  unfold GET_SIZE
  rw [size_mask_eq]
  omega

theorem GET_SIZE_lt (s : Heap) (p : Nat) : GET_SIZE s p < 4294967296 := by
  unfold GET_SIZE
  rw [size_mask_eq]
  omega

theorem GET_PUT_same (s : Heap) (p v : Nat) : GET (PUT s p v) p = v % 4294967296 := by
  simp only [GET, PUT]
  exact loadBytes_storeBytes_same4 s.mem p v

theorem GET_PUT_disj (s : Heap) (p v q : Nat) (h : q + 4 ≤ p ∨ p + 4 ≤ q) :
    GET (PUT s p v) q = GET s q := by
  simp only [GET, PUT]
  exact loadBytes_storeBytes_disj4 s.mem p 4 v q h

/-- After the pair of tag writes `PUT(HDRP(ptr), PACK(size, 0))`,
`PUT(FTRP(ptr), PACK(size, 0))` the header of `ptr` records `size`. -/
theorem GET_SIZE_after_tags (t : Heap) (ptr size : Nat) (h8 : size % 8 = 0)
    (hlt : size < 4294967296) :
    GET_SIZE (PUT (PUT t (HDRP ptr) (PACK size 0))
      (FTRP (PUT t (HDRP ptr) (PACK size 0)) ptr) (PACK size 0)) (HDRP ptr) = size := by
  have hs1 : GET_SIZE (PUT t (HDRP ptr) (PACK size 0)) (HDRP ptr) = size := by
    unfold GET_SIZE
    rw [GET_PUT_same, PACK_zero, size_mask_eq]
    omega
  have hf : FTRP (PUT t (HDRP ptr) (PACK size 0)) ptr = sub64 (add64 ptr size) DSIZE := by
    unfold FTRP
    rw [hs1]
  rw [hf]
  unfold GET_SIZE
  rw [GET_PUT_disj]
  · exact hs1
  · simp only [HDRP, sub64, add64, WSIZE, DSIZE, SIZE_T_MOD]
    omega

theorem findBucket_cases (size : Nat) :
    (size ≤ 16 ∧ findBucket size = 0) ∨ (16 < size ∧ size ≤ 32 ∧ findBucket size = 1) ∨
    (32 < size ∧ size ≤ 64 ∧ findBucket size = 2) ∨ (64 < size ∧ size ≤ 128 ∧ findBucket size = 3) ∨
    (128 < size ∧ size ≤ 256 ∧ findBucket size = 4) ∨ (256 < size ∧ size ≤ 512 ∧ findBucket size = 5) ∨
    (512 < size ∧ size ≤ 1024 ∧ findBucket size = 6) ∨ (1024 < size ∧ size ≤ 2048 ∧ findBucket size = 7) ∨
    (2048 < size ∧ size ≤ 4096 ∧ findBucket size = 8) ∨ (4096 < size ∧ size ≤ 8192 ∧ findBucket size = 9) ∨
    (8192 < size ∧ size ≤ 16384 ∧ findBucket size = 10) ∨
    (16384 < size ∧ size ≤ 32768 ∧ findBucket size = 11) ∨
    (32768 < size ∧ size ≤ 65536 ∧ findBucket size = 12) ∨ (65536 < size ∧ findBucket size = 13) := by
  unfold findBucket
  by_cases h1 : size ≤ 16
  · left; exact ⟨h1, if_pos h1⟩
  rw [if_neg h1]; right
  by_cases h2 : size ≤ 32
  · left; exact ⟨by omega, h2, if_pos h2⟩
  rw [if_neg h2]; right
  by_cases h3 : size ≤ 64
  · left; exact ⟨by omega, h3, if_pos h3⟩
  rw [if_neg h3]; right
  by_cases h4 : size ≤ 128
  · left; exact ⟨by omega, h4, if_pos h4⟩
  rw [if_neg h4]; right
  by_cases h5 : size ≤ 256
  · left; exact ⟨by omega, h5, if_pos h5⟩
  rw [if_neg h5]; right
  by_cases h6 : size ≤ 512
  · left; exact ⟨by omega, h6, if_pos h6⟩
  rw [if_neg h6]; right
  by_cases h7 : size ≤ 1024
  · left; exact ⟨by omega, h7, if_pos h7⟩
  rw [if_neg h7]; right
  by_cases h8 : size ≤ 2048
  · left; exact ⟨by omega, h8, if_pos h8⟩
  rw [if_neg h8]; right
  by_cases h9 : size ≤ 4096
  · left; exact ⟨by omega, h9, if_pos h9⟩
  rw [if_neg h9]; right
  by_cases h10 : size ≤ 8192
  · left; exact ⟨by omega, h10, if_pos h10⟩
  rw [if_neg h10]; right
  by_cases h11 : size ≤ 16384
  · left; exact ⟨by omega, h11, if_pos h11⟩
  rw [if_neg h11]; right
  by_cases h12 : size ≤ 32768
  · left; exact ⟨by omega, h12, if_pos h12⟩
  rw [if_neg h12]; right
  by_cases h13 : size ≤ 65536
  · left; exact ⟨by omega, h13, if_pos h13⟩
  rw [if_neg h13]; right
  exact ⟨by omega, rfl⟩

theorem findBucket_large (size : Nat) (h : 65536 < size) : findBucket size = 13 := by
  rcases findBucket_cases size with h | h | h | h | h | h | h | h | h | h | h | h | h | h <;> omega

theorem findBucket_le (size : Nat) : findBucket size ≤ 13 := by
  rcases findBucket_cases size with h | h | h | h | h | h | h | h | h | h | h | h | h | h <;> omega

theorem addFree_loop_some (s : Heap) (ptr size : Nat) (hle : size ≤ GET_SIZE s (HDRP ptr)) :
    ∀ k i b, 13 ≤ k + i → i ≤ 13 → ∃ b', addFree_loop s ptr size k i b = some (13, b') := by
  intro k
  induction k with
  | zero =>
    intro i b h1 h2
    have hi : i = 13 := by omega
    subst hi
    exact ⟨b, by simp [addFree_loop, MAXBUCKETS]⟩
  | succ k ih =>
    intro i b h1 h2
    by_cases hi : i < 13
    · obtain ⟨b', hb'⟩ := ih (i + 1) (freeListAt s i) (by omega) (by omega)
      refine ⟨b', ?_⟩
      have hc : ¬ (freeListAt s i ≠ NULL ∧ ¬ size ≤ GET_SIZE s (HDRP ptr)) := by
        intro h; exact h.2 hle
      simp only [addFree_loop, MAXBUCKETS]
      rw [if_pos (by omega), if_neg hc]
      exact hb'
    · have hi' : i = 13 := by omega
      subst hi'
      exact ⟨b, by simp [addFree_loop, MAXBUCKETS]⟩

theorem same_provider_ite (c : Prop) [Decidable c] {s a b : Heap} (ha : same_provider s a)
    (hb : same_provider s b) : same_provider s (if c then a else b) := by
  split <;> assumption

theorem addFree_loop_last (s : Heap) (ptr size k b : Nat) :
    addFree_loop s ptr size k 13 b = some (13, b) := by
  cases k <;> simp [addFree_loop, MAXBUCKETS]

theorem addFree_returns (s : Heap) (ptr size : Nat)
    (h : size ≤ GET_SIZE s (HDRP ptr) ∨ findBucket size = 13) :
    ∃ t, addFree s ptr size = some t ∧ same_provider s t := by
  have hloop : ∃ b', addFree_loop s ptr size MAXBUCKETS (findBucket size) NULL = some (13, b') := by
    rcases h with hle | h13
    · exact addFree_loop_some s ptr size hle MAXBUCKETS (findBucket size) NULL
        (by unfold MAXBUCKETS; omega) (findBucket_le size)
    · rw [h13]
      exact ⟨NULL, addFree_loop_last s ptr size MAXBUCKETS NULL⟩
  obtain ⟨b', hb'⟩ := hloop
  unfold addFree
  rw [hb']
  refine ⟨_, rfl, ?_⟩
  apply same_provider_trans _ (same_provider_setFreeList _ _ _)
  apply same_provider_ite
  · exact same_provider_trans (same_provider_trans (same_provider_PUTP _ _ _)
      (same_provider_PUTP _ _ _)) (same_provider_PUTP _ _ _)
  · exact same_provider_trans (same_provider_PUTP _ _ _) (same_provider_PUTP _ _ _)

/-- An insertion made right after the pair of tag writes returns. -/
theorem addFree_after_tags (t : Heap) (ptr size : Nat) (h8 : size % 8 = 0) :
    ∃ u, addFree (PUT (PUT t (HDRP ptr) (PACK size 0))
        (FTRP (PUT t (HDRP ptr) (PACK size 0)) ptr) (PACK size 0)) ptr size = some u ∧
      same_provider t u := by
  by_cases hlt : size < 4294967296
  · obtain ⟨u, hu, hp⟩ := addFree_returns _ ptr size
      (Or.inl (le_of_eq (GET_SIZE_after_tags t ptr size h8 hlt).symm))
    exact ⟨u, hu, same_provider_trans
      (same_provider_trans (same_provider_PUT _ _ _) (same_provider_PUT _ _ _)) hp⟩
  · obtain ⟨u, hu, hp⟩ := addFree_returns (PUT (PUT t (HDRP ptr) (PACK size 0))
        (FTRP (PUT t (HDRP ptr) (PACK size 0)) ptr) (PACK size 0)) ptr size
      (Or.inr (findBucket_large size (by omega)))
    exact ⟨u, hu, same_provider_trans
      (same_provider_trans (same_provider_PUT _ _ _) (same_provider_PUT _ _ _)) hp⟩

theorem add64_mod8 (a b : Nat) (ha : a % 8 = 0) (hb : b % 8 = 0) : add64 a b % 8 = 0 := by
  simp only [add64, SIZE_T_MOD]; omega

theorem sub64_mod8 (a b : Nat) (ha : a % 8 = 0) (hb : b % 8 = 0) : sub64 a b % 8 = 0 := by
  simp only [sub64, SIZE_T_MOD]; omega

theorem coalesce_returns (s : Heap) (ptr : Nat) :
    ∃ r, coalesce s ptr = some r ∧ same_provider s r.2 := by
  unfold coalesce
  dsimp only
  split_ifs with h1 h2 h3
  · obtain ⟨t, ht, hp⟩ := addFree_returns s ptr (GET_SIZE s (HDRP ptr)) (Or.inl (le_refl _))
    exact ⟨(ptr, t), by rw [ht]; rfl, hp⟩
  · obtain ⟨t, ht, hp⟩ := addFree_after_tags (removeFree s (NEXT_BLKP s ptr)
        (GET_SIZE s (HDRP (NEXT_BLKP s ptr)))) ptr
        (add64 (GET_SIZE s (HDRP ptr)) (GET_SIZE s (HDRP (NEXT_BLKP s ptr))))
        (add64_mod8 _ _ (GET_SIZE_mod8 _ _) (GET_SIZE_mod8 _ _))
    exact ⟨(ptr, t), by rw [ht]; rfl,
      same_provider_trans (same_provider_removeFree _ _ _) hp⟩
  · obtain ⟨t, ht, hp⟩ := addFree_after_tags (removeFree s (PREV_BLKP s ptr)
        (GET_SIZE s (HDRP (PREV_BLKP s ptr))))
        (PREV_BLKP (removeFree s (PREV_BLKP s ptr) (GET_SIZE s (HDRP (PREV_BLKP s ptr)))) ptr)
        (add64 (GET_SIZE s (HDRP ptr)) (GET_SIZE s (HDRP (PREV_BLKP s ptr))))
        (add64_mod8 _ _ (GET_SIZE_mod8 _ _) (GET_SIZE_mod8 _ _))
    exact ⟨(_, t), by rw [ht]; rfl,
      same_provider_trans (same_provider_removeFree _ _ _) hp⟩
  · obtain ⟨t, ht, hp⟩ := addFree_after_tags
        (removeFree (removeFree s (PREV_BLKP s ptr) (GET_SIZE s (HDRP (PREV_BLKP s ptr))))
          (NEXT_BLKP (removeFree s (PREV_BLKP s ptr) (GET_SIZE s (HDRP (PREV_BLKP s ptr)))) ptr)
          (GET_SIZE s (HDRP (NEXT_BLKP s ptr))))
        (PREV_BLKP (removeFree (removeFree s (PREV_BLKP s ptr) (GET_SIZE s (HDRP (PREV_BLKP s ptr))))
          (NEXT_BLKP (removeFree s (PREV_BLKP s ptr) (GET_SIZE s (HDRP (PREV_BLKP s ptr)))) ptr)
          (GET_SIZE s (HDRP (NEXT_BLKP s ptr)))) ptr)
        (add64 (add64 (GET_SIZE s (HDRP ptr)) (GET_SIZE s (HDRP (PREV_BLKP s ptr))))
          (GET_SIZE s (HDRP (NEXT_BLKP s ptr))))
        (add64_mod8 _ _ (add64_mod8 _ _ (GET_SIZE_mod8 _ _) (GET_SIZE_mod8 _ _)) (GET_SIZE_mod8 _ _))
    exact ⟨(_, t), by rw [ht]; rfl,
      same_provider_trans (same_provider_trans (same_provider_removeFree _ _ _)
        (same_provider_removeFree _ _ _)) hp⟩

theorem place_returns (s : Heap) (ptr asize : Nat) (h8 : asize % 8 = 0) :
    ∃ t, place s ptr asize = some t ∧ same_provider s t := by
  unfold place
  dsimp only
  split_ifs with h
  · obtain ⟨u, hu, hp⟩ := addFree_after_tags
      (PUT (PUT s (HDRP ptr) (PACK asize 1))
        (FTRP (PUT s (HDRP ptr) (PACK asize 1)) ptr) (PACK asize 1))
      (add64 ptr (GET_SIZE (PUT (PUT s (HDRP ptr) (PACK asize 1))
        (FTRP (PUT s (HDRP ptr) (PACK asize 1)) ptr) (PACK asize 1)) (HDRP ptr)))
      (sub64 (GET_SIZE s (HDRP ptr)) asize)
      (sub64_mod8 _ _ (GET_SIZE_mod8 _ _) h8)
    exact ⟨u, hu, same_provider_trans
      (same_provider_trans (same_provider_PUT _ _ _) (same_provider_PUT _ _ _)) hp⟩
  · exact ⟨_, rfl, same_provider_trans (same_provider_PUT _ _ _) (same_provider_PUT _ _ _)⟩

theorem adjusted_size_mod8 (n : Nat) : adjusted_size n % 8 = 0 := by
  unfold adjusted_size
  split_ifs
  · simp [DSIZE]
  · simp only [mul64, add64, DSIZE, SIZE_T_MOD]
    omega

theorem adjusted_size_lt (n : Nat) : adjusted_size n < SIZE_T_MOD := by
  unfold adjusted_size
  split_ifs
  · simp [DSIZE, SIZE_T_MOD]
  · simp only [mul64, add64, DSIZE, SIZE_T_MOD]
    omega

theorem growth_request_eq (n : Nat) : growth_request n = max (adjusted_size n) CHUNKSIZE := by
  have h8 := adjusted_size_mod8 n
  have hlt := adjusted_size_lt n
  unfold growth_request extend_size
  simp only [CHUNKSIZE, WSIZE, MIN_BLOCK_SIZE, mul64, add64, SIZE_T_MOD] at *
  generalize adjusted_size n = a at *
  split_ifs <;> omega

theorem exists_some_imp {α : Type} {o : Option α} {P Q : α → Prop}
    (h : ∃ r, o = some r ∧ P r) (hpq : ∀ r, o = some r → P r → Q r) :
    ∃ r, o = some r ∧ Q r := by
  obtain ⟨r, hr, hp⟩ := h
  exact ⟨r, hr, hpq r hr hp⟩

theorem extend_heap_returns (s : Heap) (w : Nat) :
    ∃ r, extend_heap s w = some r ∧
      r.2.sbrk_requests = extend_size w :: s.sbrk_requests ∧
      (s.mem_brk + extend_size w ≤ s.mem_max_addr → r.2.mem_brk = s.mem_brk + extend_size w) ∧
      (s.mem_max_addr < s.mem_brk + extend_size w → r.1 = NULL ∧ r.2.mem_brk = s.mem_brk) := by
  unfold extend_heap mem_sbrk
  dsimp only
  by_cases hfail : s.mem_brk + extend_size w > s.mem_max_addr
  · rw [if_pos hfail]
    dsimp only
    rw [if_pos rfl]
    refine ⟨_, rfl, rfl, ?_, ?_⟩
    · intro h; omega
    · intro _; exact ⟨rfl, rfl⟩
  · rw [if_neg hfail]
    dsimp only
    split_ifs with hb
    · refine ⟨_, rfl, rfl, ?_, ?_⟩
      · intro _; rfl
      · intro h; omega
    · refine exists_some_imp (coalesce_returns _ _) ?_
      intro r _ hp
      refine ⟨hp.2.2.1, ?_, ?_⟩
      · intro _; exact hp.1
      · intro h; omega

/-! ## Claims on reuse, growth, buckets, lists, placement and coalescing -/

/-- C11 fails on the code: on a provider at `base2`, after `mm_init` and three
allocations, the block `x` returned by the second call has both physical
neighbours marked allocated; `mm_free(x)` followed at once by `mm_malloc(16)`,
the size `x` was requested with, does not return `x` but its live upper
neighbour. -/
theorem reuse_returns_live_neighbour :
    ∃ s s', session_at base2 [Call.malloc 3896, Call.malloc 16, Call.malloc 16]
        = some ([first_bp base2, first_bp base2 + 3904, first_bp base2 + 3928], s) ∧
      GET_ALLOC s (FTRP s (PREV_BLKP s (first_bp base2 + 3904))) = 1 ∧
      GET_ALLOC s (HDRP (NEXT_BLKP s (first_bp base2 + 3904))) = 1 ∧
      run 8 s [Call.free (first_bp base2 + 3904), Call.malloc 16]
        = some ([first_bp base2 + 3928], s') ∧
      first_bp base2 + 3928 ≠ first_bp base2 + 3904 := by
  have h : (session_at base2 [Call.malloc 3896, Call.malloc 16, Call.malloc 16]).bind
      (fun r => (run 8 r.2 [Call.free (first_bp base2 + 3904), Call.malloc 16]).map
        (fun r' => decide
          (r.1 = [first_bp base2, first_bp base2 + 3904, first_bp base2 + 3928] ∧
           GET_ALLOC r.2 (FTRP r.2 (PREV_BLKP r.2 (first_bp base2 + 3904))) = 1 ∧
           GET_ALLOC r.2 (HDRP (NEXT_BLKP r.2 (first_bp base2 + 3904))) = 1 ∧
           r'.1 = [first_bp base2 + 3928])))
      = some true := by decide
  obtain ⟨⟨ps, s⟩, hs, hb⟩ := Option.bind_eq_some.mp h
  obtain ⟨⟨ps', s'⟩, hr, hf⟩ := map_some_elim hb
  simp only [decide_eq_true_eq] at hf
  obtain ⟨h1, h2, h3, h4⟩ := hf
  subst h1
  subst h4
  exact ⟨s, s', hs, h2, h3, hr, by decide⟩

/-- The extension path of `mm_malloc`: for a request `n > 0` for which
`find_fit` returns `NULL`, `mm_malloc` returns, and it asks the growth
primitive once, for exactly `max(asize, CHUNKSIZE)` bytes, `asize` being the
adjusted size of `n`; when the primitive can grant them the break moves up by
exactly that many bytes, and when it cannot the result is `NULL` and the
break stays. -/
theorem mm_malloc_growth_amount (fuel : Nat) (s : Heap) (n : Nat) (hn : 0 < n)
    (hfit : find_fit fuel s (adjusted_size n) = some NULL) :
    growth_request n = max (adjusted_size n) CHUNKSIZE ∧
    ∃ p s', mm_malloc fuel s n = some (p, s') ∧
      s'.sbrk_requests = growth_request n :: s.sbrk_requests ∧
      (s.mem_brk + growth_request n ≤ s.mem_max_addr →
        s'.mem_brk = s.mem_brk + growth_request n) ∧
      (s.mem_max_addr < s.mem_brk + growth_request n → p = NULL ∧ s'.mem_brk = s.mem_brk) := by
  refine ⟨growth_request_eq n, ?_⟩
  have hn0 : n ≠ 0 := Nat.pos_iff_ne_zero.mp hn
  obtain ⟨⟨bp1, s1⟩, hr, hlog, hgrow, hfail⟩ := extend_heap_returns s
    ((if adjusted_size n > CHUNKSIZE then adjusted_size n else CHUNKSIZE) / WSIZE)
  have hG : extend_size ((if adjusted_size n > CHUNKSIZE then adjusted_size n else CHUNKSIZE) / WSIZE)
      = growth_request n := rfl
  rw [hG] at hlog hgrow hfail
  simp only [mm_malloc, if_neg hn0, hfit]
  simp only [NULL, ne_eq, not_true_eq_false, if_false]
  rw [hr]
  dsimp only
  by_cases hb : bp1 = 0
  · rw [if_pos hb]
    refine ⟨0, s1, rfl, hlog, hgrow, ?_⟩
    intro h
    exact ⟨rfl, (hfail h).2⟩
  · rw [if_neg hb]
    obtain ⟨t, ht, hp⟩ := place_returns s1 bp1 (adjusted_size n) (adjusted_size_mod8 n)
    obtain ⟨h1, h2, h3, h4, h5⟩ := hp
    refine ⟨bp1, t, by rw [ht]; rfl, h3.trans hlog, ?_, ?_⟩
    · intro h; rw [h1]; exact hgrow h
    · intro h
      exact absurd (hfail h).1 hb

/-- The extension path at a concrete input: in the state left by a starved
`mm_init` whose provider has since been given room, every bucket is empty and
`mm_malloc(5000)` asks for the adjusted size of the request. -/
theorem mm_malloc_growth_amount_witness :
    (0 < 5000 ∧ find_fit 8 regrown (adjusted_size 5000) = some NULL) ∧
    (growth_request 5000 = max (adjusted_size 5000) CHUNKSIZE ∧
     ∃ p s', mm_malloc 8 regrown 5000 = some (p, s') ∧
      s'.sbrk_requests = growth_request 5000 :: regrown.sbrk_requests ∧
      (regrown.mem_brk + growth_request 5000 ≤ regrown.mem_max_addr →
        s'.mem_brk = regrown.mem_brk + growth_request 5000) ∧
      (regrown.mem_max_addr < regrown.mem_brk + growth_request 5000 →
        p = NULL ∧ s'.mem_brk = regrown.mem_brk)) :=
  ⟨⟨by decide, by decide⟩, mm_malloc_growth_amount 8 regrown 5000 (by decide) (by decide)⟩

/-- C12 fails on the code: after a successful `mm_init` on a 20 MiB provider
the free lists hold one block, of stored size 8192, and the whole heap is 4224
bytes, so no free block fits `mm_malloc(10000)`, whose adjusted size is 10008;
the provider has room for the 10008 bytes of `max(asize, CHUNKSIZE)`.  Yet
`find_fit` returns the block and `mm_malloc` returns it without any request to
the growth primitive: the request log and the break are as before, the header
of the block now records 10008 bytes, its footer lies beyond the break, and
the footer address of the remainder `place` splits off lies beyond the
provider's limit. -/
theorem malloc_without_fit_makes_no_growth_request :
    ∃ s s', boot (mem_init base0 MAX_HEAP) = some s ∧
      s.mem_brk = base0 + 4224 ∧
      (∀ b ∈ List.range MAXBUCKETS, b ≠ 13 → freeListAt s b = NULL) ∧
      list_from s 3 (freeListAt s 13) = [first_bp base0, first_bp base0, first_bp base0] ∧
      GET s (HDRP (first_bp base0)) = PACK 8192 0 ∧
      adjusted_size 10000 = 10008 ∧
      growth_request 10000 = 10008 ∧
      s.mem_brk + growth_request 10000 ≤ s.mem_max_addr ∧
      find_fit 8 s (adjusted_size 10000) = some (first_bp base0) ∧
      mm_malloc 8 s 10000 = some (first_bp base0, s') ∧
      s'.sbrk_requests = s.sbrk_requests ∧
      s'.mem_brk = s.mem_brk ∧
      GET s' (HDRP (first_bp base0)) = PACK 10008 1 ∧
      s'.mem_brk < FTRP s' (first_bp base0) ∧
      s'.mem_max_addr ≤ FTRP s' (NEXT_BLKP s' (first_bp base0)) := by
  have h : (boot (mem_init base0 MAX_HEAP)).bind
      (fun s => (mm_malloc 8 s 10000).map
        (fun r => decide
          (s.mem_brk = base0 + 4224 ∧
           (∀ b ∈ List.range MAXBUCKETS, b ≠ 13 → freeListAt s b = NULL) ∧
           list_from s 3 (freeListAt s 13) = [first_bp base0, first_bp base0, first_bp base0] ∧
           GET s (HDRP (first_bp base0)) = PACK 8192 0 ∧
           s.mem_brk + growth_request 10000 ≤ s.mem_max_addr ∧
           find_fit 8 s (adjusted_size 10000) = some (first_bp base0) ∧
           r.1 = first_bp base0 ∧
           r.2.sbrk_requests = s.sbrk_requests ∧
           r.2.mem_brk = s.mem_brk ∧
           GET r.2 (HDRP (first_bp base0)) = PACK 10008 1 ∧
           r.2.mem_brk < FTRP r.2 (first_bp base0) ∧
           r.2.mem_max_addr ≤ FTRP r.2 (NEXT_BLKP r.2 (first_bp base0)))))
      = some true := by decide
  obtain ⟨s, hs, hb⟩ := Option.bind_eq_some.mp h
  obtain ⟨⟨p, s'⟩, hr, hf⟩ := map_some_elim hb
  simp only [decide_eq_true_eq] at hf
  obtain ⟨a1, a2, a3, a4, a5, a6, a7, a8, a9, a10, a11, a12⟩ := hf
  subst a7
  exact ⟨s, s', hs, a1, a2, a3, a4, by decide, by decide, a5, a6, hr, a8, a9, a10, a11, a12⟩

/-- C13: `findBucket` returns an index in `[0, 13]`; it returns 0 for sizes up
to 16, the index `i` in `[1, 12]` exactly for the sizes in
`(2 ^ (i + 3), 2 ^ (i + 4)]`, and 13 exactly for the sizes above 65536; it
is monotonic in the size. -/
theorem findBucket_spec (size : Nat) :
    findBucket size ≤ 13 ∧ (size ≤ 16 → findBucket size = 0) ∧
    (∀ i, 1 ≤ i → i ≤ 12 → (findBucket size = i ↔ 2 ^ (i + 3) < size ∧ size ≤ 2 ^ (i + 4))) ∧
    (findBucket size = 13 ↔ 65536 < size) ∧
    (∀ size2, size ≤ size2 → findBucket size ≤ findBucket size2) := by
  refine ⟨?_, ?_, ?_, ?_, ?_⟩
  · rcases findBucket_cases size with h | h | h | h | h | h | h | h | h | h | h | h | h | h <;> omega
  · intro h0
    rcases findBucket_cases size with h | h | h | h | h | h | h | h | h | h | h | h | h | h <;> omega
  · intro i h1 h2
    interval_cases i <;> norm_num <;>
    rcases findBucket_cases size with h | h | h | h | h | h | h | h | h | h | h | h | h | h <;> omega
  · rcases findBucket_cases size with h | h | h | h | h | h | h | h | h | h | h | h | h | h <;> omega
  · intro size2 hle
    rcases findBucket_cases size with h | h | h | h | h | h | h | h | h | h | h | h | h | h <;>
    rcases findBucket_cases size2 with g | g | g | g | g | g | g | g | g | g | g | g | g | g <;> omega

/-- C13 at concrete inputs: size 100 falls in bucket 3 and below size 5000. -/
theorem findBucket_spec_witness :
    findBucket 100 ≤ 13 ∧ (findBucket 100 = 3 ↔ 2 ^ (3 + 3) < 100 ∧ 100 ≤ 2 ^ (3 + 4)) ∧
    findBucket 100 ≤ findBucket 5000 :=
  ⟨(findBucket_spec 100).1, (findBucket_spec 100).2.2.1 3 (by decide) (by decide),
   (findBucket_spec 100).2.2.2.2 5000 (by decide)⟩

/-- C14 fails on the code: in a state reached from `mm_init`, a 24-byte block
marked free as `mm_free` does is passed to `addFree` with its size.  Bucket
`findBucket(24) = 1` is empty before and after; the block becomes the head of
bucket 13, with the previous head of bucket 13 as successor. -/
theorem insertion_goes_to_last_bucket :
    ∃ s t, session [Call.malloc 16, Call.malloc 16, Call.malloc 16]
        = some ([first_bp base0, first_bp base0 + 24, first_bp base0 + 48], s) ∧
      addFree (write_tags s (first_bp base0 + 24) 24 0) (first_bp base0 + 24) 24 = some t ∧
      findBucket 24 = 1 ∧
      freeListAt (write_tags s (first_bp base0 + 24) 24 0) 1 = NULL ∧
      freeListAt (write_tags s (first_bp base0 + 24) 24 0) 13 = first_bp base0 + 72 ∧
      freeListAt t 1 = NULL ∧
      freeListAt t 13 = first_bp base0 + 24 ∧
      succ_link t (first_bp base0 + 24) = first_bp base0 + 72 ∧
      pred_link t (first_bp base0 + 24) = NULL := by
  have h : (session [Call.malloc 16, Call.malloc 16, Call.malloc 16]).bind
      (fun r => (addFree (write_tags r.2 (first_bp base0 + 24) 24 0) (first_bp base0 + 24) 24).map
        (fun t => decide
          (r.1 = [first_bp base0, first_bp base0 + 24, first_bp base0 + 48] ∧
           findBucket 24 = 1 ∧
           freeListAt (write_tags r.2 (first_bp base0 + 24) 24 0) 1 = NULL ∧
           freeListAt (write_tags r.2 (first_bp base0 + 24) 24 0) 13 = first_bp base0 + 72 ∧
           freeListAt t 1 = NULL ∧
           freeListAt t 13 = first_bp base0 + 24 ∧
           succ_link t (first_bp base0 + 24) = first_bp base0 + 72 ∧
           pred_link t (first_bp base0 + 24) = NULL)))
      = some true := by decide
  obtain ⟨⟨ps, s⟩, hs, hb⟩ := Option.bind_eq_some.mp h
  obtain ⟨t, ht, hf⟩ := map_some_elim hb
  simp only [decide_eq_true_eq] at hf
  obtain ⟨h1, h2, h3, h4, h5, h6, h7, h8⟩ := hf
  subst h1
  exact ⟨s, t, hs, ht, h2, h3, h4, h5, h6, h7, h8⟩

/-- C15 fails on the code: in the hand-made heap `tidy` the bucket of size 40
holds the list `q, p` with consistent links; after `removeFree(q, 40)` the
bucket head is still `q`, the list is still `q, p`, and the predecessor link
of `p` still names `q`.  Likewise in a state reached from `mm_init`: the block
at the head of bucket 13 is still there after `removeFree`. -/
theorem removal_leaves_block_linked :
    (list_from tidy 4 (freeListAt tidy (findBucket 40)) = [first_bp base0, first_bp base0 + 64] ∧
     GET tidy (HDRP (first_bp base0)) = PACK 40 0 ∧
     pred_link tidy (first_bp base0) = NULL ∧
     pred_link tidy (first_bp base0 + 64) = first_bp base0 ∧
     freeListAt (removeFree tidy (first_bp base0) 40) (findBucket 40) = first_bp base0 ∧
     list_from (removeFree tidy (first_bp base0) 40) 4
         (freeListAt (removeFree tidy (first_bp base0) 40) (findBucket 40))
       = [first_bp base0, first_bp base0 + 64] ∧
     pred_link (removeFree tidy (first_bp base0) 40) (first_bp base0 + 64) = first_bp base0) ∧
    ∃ s, session [Call.malloc 16, Call.malloc 16, Call.malloc 16, Call.free (first_bp base0 + 24)]
        = some ([first_bp base0, first_bp base0 + 24, first_bp base0 + 48], s) ∧
      GET s (HDRP (first_bp base0 + 24)) = PACK 24 0 ∧
      freeListAt s 13 = first_bp base0 + 24 ∧
      freeListAt (removeFree s (first_bp base0 + 24) 24) 13 = first_bp base0 + 24 := by
  refine ⟨by decide, ?_⟩
  have h : (session [Call.malloc 16, Call.malloc 16, Call.malloc 16,
        Call.free (first_bp base0 + 24)]).map
      (fun r => decide
        (r.1 = [first_bp base0, first_bp base0 + 24, first_bp base0 + 48] ∧
         GET r.2 (HDRP (first_bp base0 + 24)) = PACK 24 0 ∧
         freeListAt r.2 13 = first_bp base0 + 24 ∧
         freeListAt (removeFree r.2 (first_bp base0 + 24) 24) 13 = first_bp base0 + 24))
      = some true := by decide
  obtain ⟨⟨ps, s⟩, hs, hf⟩ := map_some_elim h
  simp only [decide_eq_true_eq] at hf
  obtain ⟨h1, h2, h3, h4⟩ := hf
  subst h1
  exact ⟨s, hs, h2, h3, h4⟩

/-- C16 fails on the code: in the hand-made heap `tidy`, whose only non-empty
bucket holds the list `q, p` (40 and 64 bytes, tags and links consistent),
`find_fit(48)` returns `q`, whose header records 40 bytes, and not `p`, the
first block of the list with room.  Likewise after `mm_init`: `find_fit(10008)`
returns the block whose header records 8192 bytes. -/
theorem find_fit_returns_short_block :
    ((∀ b ∈ List.range MAXBUCKETS, b ≠ 2 → freeListAt tidy b = NULL) ∧
     list_from tidy 4 (freeListAt tidy 2) = [first_bp base0, first_bp base0 + 64] ∧
     pred_link tidy (first_bp base0) = NULL ∧
     pred_link tidy (first_bp base0 + 64) = first_bp base0 ∧
     heap_chain tidy 8 (first_bp base0)
       = [first_bp base0, first_bp base0 + 40, first_bp base0 + 64] ∧
     (∀ bp ∈ heap_chain tidy 8 (first_bp base0), tags_agree tidy bp) ∧
     adjacent_free tidy (heap_chain tidy 8 (first_bp base0)) = false ∧
     GET tidy (HDRP (first_bp base0)) = PACK 40 0 ∧
     GET tidy (HDRP (first_bp base0 + 64)) = PACK 64 0 ∧
     findBucket 40 = 2 ∧ findBucket 64 = 2 ∧ findBucket 48 = 2 ∧
     find_fit 8 tidy 48 = some (first_bp base0) ∧
     GET_SIZE tidy (HDRP (first_bp base0)) < 48) ∧
    ∃ s, boot (mem_init base0 MAX_HEAP) = some s ∧
      find_fit 8 s 10008 = some (first_bp base0) ∧
      GET_SIZE s (HDRP (first_bp base0)) = 8192 := by
  refine ⟨by decide, ?_⟩
  have h : (boot (mem_init base0 MAX_HEAP)).map
      (fun s => decide
        (find_fit 8 s 10008 = some (first_bp base0) ∧
         GET_SIZE s (HDRP (first_bp base0)) = 8192))
      = some true := by decide
  obtain ⟨s, hs, hf⟩ := map_some_elim h
  simp only [decide_eq_true_eq] at hf
  exact ⟨s, hs, hf.1, hf.2⟩

/-- C17 fails on the code: after `mm_init` the first block is free with stored
size 8192; `place(ptr, 16)` leaves header `PACK(16, 1)` at `ptr`, but the
footer word of that block holds the low half of a link, and the header word of
the block at `ptr + 16` holds 32767 instead of `PACK(8176, 0)`. -/
theorem place_small_block_breaks_tags :
    ∃ s t, boot (mem_init base0 MAX_HEAP) = some s ∧
      GET s (HDRP (first_bp base0)) = PACK 8192 0 ∧
      GET s (FTRP s (first_bp base0)) = PACK 8192 0 ∧
      24 ≤ 8192 - 16 ∧
      place s (first_bp base0) 16 = some t ∧
      GET t (HDRP (first_bp base0)) = PACK 16 1 ∧
      GET t (sub64 (add64 (first_bp base0) 16) DSIZE) = 4139774112 ∧
      GET t (HDRP (first_bp base0 + 16)) = 32767 ∧
      PACK (8192 - 16) 0 = 8176 := by
  have h : (boot (mem_init base0 MAX_HEAP)).bind
      (fun s => (place s (first_bp base0) 16).map
        (fun t => decide
          (GET s (HDRP (first_bp base0)) = PACK 8192 0 ∧
           GET s (FTRP s (first_bp base0)) = PACK 8192 0 ∧
           GET t (HDRP (first_bp base0)) = PACK 16 1 ∧
           GET t (sub64 (add64 (first_bp base0) 16) DSIZE) = 4139774112 ∧
           GET t (HDRP (first_bp base0 + 16)) = 32767)))
      = some true := by decide
  obtain ⟨s, hs, hb⟩ := Option.bind_eq_some.mp h
  obtain ⟨t, ht, hf⟩ := map_some_elim hb
  simp only [decide_eq_true_eq] at hf
  obtain ⟨h1, h2, h3, h4, h5⟩ := hf
  exact ⟨s, t, hs, h1, h2, by decide, ht, h3, h4, h5, by decide⟩

/-- C18 fails on the code: five blocks are allocated after `mm_init`, the second
and the fourth are freed, and the third is marked free; tags agree along the
chain.  `coalesce` on the third returns the second block with header and
footer `PACK(72, 0)`, yet the merged upper neighbour is still in the free
lists: it is the successor of the head of bucket 13. -/
theorem coalesce_leaves_neighbour_in_list :
    ∃ s t, session [Call.malloc 16, Call.malloc 16, Call.malloc 16, Call.malloc 16,
          Call.malloc 16, Call.free (first_bp base0 + 24), Call.free (first_bp base0 + 72)]
        = some ([first_bp base0, first_bp base0 + 24, first_bp base0 + 48,
                 first_bp base0 + 72, first_bp base0 + 96], s) ∧
      (∀ bp ∈ heap_chain (write_tags s (first_bp base0 + 48) 24 0) 8 (first_bp base0),
        tags_agree (write_tags s (first_bp base0 + 48) 24 0) bp) ∧
      GET s (HDRP (first_bp base0 + 24)) = PACK 24 0 ∧
      GET s (HDRP (first_bp base0 + 72)) = PACK 24 0 ∧
      coalesce (write_tags s (first_bp base0 + 48) 24 0) (first_bp base0 + 48)
        = some (first_bp base0 + 24, t) ∧
      GET t (HDRP (first_bp base0 + 24)) = PACK 72 0 ∧
      GET t (FTRP t (first_bp base0 + 24)) = PACK 72 0 ∧
      freeListAt t 13 = first_bp base0 + 24 ∧
      succ_link t (first_bp base0 + 24) = first_bp base0 + 72 ∧
      in_free_lists t 2 (first_bp base0 + 72) := by
  have h : (session [Call.malloc 16, Call.malloc 16, Call.malloc 16, Call.malloc 16,
          Call.malloc 16, Call.free (first_bp base0 + 24), Call.free (first_bp base0 + 72)]).bind
      (fun r => (coalesce (write_tags r.2 (first_bp base0 + 48) 24 0) (first_bp base0 + 48)).map
        (fun c => decide
          (r.1 = [first_bp base0, first_bp base0 + 24, first_bp base0 + 48,
                  first_bp base0 + 72, first_bp base0 + 96] ∧
           (∀ bp ∈ heap_chain (write_tags r.2 (first_bp base0 + 48) 24 0) 8 (first_bp base0),
             tags_agree (write_tags r.2 (first_bp base0 + 48) 24 0) bp) ∧
           GET r.2 (HDRP (first_bp base0 + 24)) = PACK 24 0 ∧
           GET r.2 (HDRP (first_bp base0 + 72)) = PACK 24 0 ∧
           c.1 = first_bp base0 + 24 ∧
           GET c.2 (HDRP (first_bp base0 + 24)) = PACK 72 0 ∧
           GET c.2 (FTRP c.2 (first_bp base0 + 24)) = PACK 72 0 ∧
           freeListAt c.2 13 = first_bp base0 + 24 ∧
           succ_link c.2 (first_bp base0 + 24) = first_bp base0 + 72 ∧
           in_free_lists c.2 2 (first_bp base0 + 72))))
      = some true := by decide
  obtain ⟨⟨ps, s⟩, hs, hb⟩ := Option.bind_eq_some.mp h
  obtain ⟨⟨cp, t⟩, hc, hf⟩ := map_some_elim hb
  simp only [decide_eq_true_eq] at hf
  obtain ⟨h1, h2, h3, h4, h5, h6, h7, h8, h9, h10⟩ := hf
  subst h1
  subst h5
  exact ⟨s, t, hs, h2, h3, h4, hc, h6, h7, h8, h9, h10⟩

/-- C19 fails on the code: for requests of 1 and of 8 bytes the adjusted size
is 16, a multiple of 8 and at least the request plus `OVERHEAD`, but below
`MIN_BLOCK_SIZE`. -/
theorem small_request_adjusted_size :
    adjusted_size 1 = 16 ∧ adjusted_size 8 = 16 ∧ adjusted_size 8 % 8 = 0 ∧
    8 + OVERHEAD ≤ adjusted_size 8 ∧ adjusted_size 8 < MIN_BLOCK_SIZE := by
  decide

end CopyMM
